import Mathlib

/-!
Verification of the markdown-decision-tree repository: a shallow embedding of
the DSM (Decision Script Markdown) parser (`src/parser.ts`), its data model
(`src/types.ts`) and the two converters (`src/converters.ts`), together with
proofs of the specification claims.

Strings are processed as their underlying character lists; JS regular
expression matches used by the source are translated into explicit character
list analyses, faithful to the regex semantics on the inputs involved.
-/

namespace MDT

/-- Positioned parse failure, mirroring the `ParseError` class of `types.ts`
(a message string together with a 1-indexed line number, 0 for document-level
failures). -/
structure ParseErr where
  message : String
  lineNumber : Nat

mutual

/-- `QuestionNode` of `types.ts`: id, text, IF-node children, line number. -/
inductive QuestionNode : Type where
  | mk (id : String) (text : String) (children : List IfNode) (lineNumber : Nat)

/-- `IfNode` of `types.ts`: answer, Q-node children, line number. -/
inductive IfNode : Type where
  | mk (answer : String) (children : List QuestionNode) (lineNumber : Nat)

end

/-- `TopicNode` of `types.ts`: level, title, sub-topics, direct questions, line. -/
inductive TopicNode : Type where
  | mk (level : Nat) (title : String) (children : List TopicNode)
      (questions : List QuestionNode) (lineNumber : Nat)

/-- `DSMDocument` of `types.ts`. -/
structure DSMDocument where
  rootQuestions : List QuestionNode
  topics : List TopicNode

def QuestionNode.id : QuestionNode → String
  | .mk i _ _ _ => i

def QuestionNode.text : QuestionNode → String
  | .mk _ t _ _ => t

def QuestionNode.children : QuestionNode → List IfNode
  | .mk _ _ cs _ => cs

def QuestionNode.lineNumber : QuestionNode → Nat
  | .mk _ _ _ ln => ln

def IfNode.answer : IfNode → String
  | .mk a _ _ => a

def IfNode.children : IfNode → List QuestionNode
  | .mk _ cs _ => cs

def TopicNode.level : TopicNode → Nat
  | .mk l _ _ _ _ => l

def TopicNode.title : TopicNode → String
  | .mk _ t _ _ _ => t

def TopicNode.childTopics : TopicNode → List TopicNode
  | .mk _ _ cs _ _ => cs

def TopicNode.questions : TopicNode → List QuestionNode
  | .mk _ _ _ qs _ => qs

/-! ## Line classifier (`parseLines` in `parser.ts`) -/

/-- Classified line record (the `ParsedLine` interface of `parser.ts`);
question and condition lines carry the indent level alongside the raw
leading-space count. -/
inductive LineKind : Type where
  | blank
  | heading (level : Nat) (text : String)
  | question (level : Nat) (text : String) (spaces : Nat)
  | cond (level : Nat) (text : String) (spaces : Nat)

structure ParsedLine where
  lineNumber : Nat
  kind : LineKind

/-- Whitespace as treated by the JS `trim`/blank-line checks on the characters
that can occur here. -/
def isWsChar (c : Char) : Bool :=
  c == ' ' || c == '\t' || c == '\n' || c == '\r' || c == '\x0b' || c == '\x0c'

/-- JS `String.prototype.trim` on a character list. -/
def trimChars (l : List Char) : List Char :=
  ((l.dropWhile isWsChar).reverse.dropWhile isWsChar).reverse

/-- Match of the heading regex `^(#{1,6}) (.+)$` at column 0: the number of
leading hash characters must be between 1 and 6, followed by a space and a
non-empty remainder, which is returned verbatim. -/
def headingMatch (l : List Char) : Option (Nat × List Char) :=
  let k := (l.takeWhile (fun c => c == '#')).length
  if 1 ≤ k ∧ k ≤ 6 then
    match l.drop k with
    | ' ' :: t => if t.isEmpty then none else some (k, t)
    | _ => none
  else none

/-- Match of the list-item regex `^( *)- (.*)$`: all leading spaces, then
a dash and a space, then arbitrary content. -/
def listMatch (l : List Char) : Option (Nat × List Char) :=
  let sp := (l.takeWhile (fun c => c == ' ')).length
  match l.drop sp with
  | '-' :: ' ' :: content => some (sp, content)
  | _ => none

/-- The content contains the two-character sequence of two asterisks
(the check of `validateNoBoldMarkers`). -/
def hasDoubleStar : List Char → Bool
  | '*' :: '*' :: _ => true
  | _ :: rest => hasDoubleStar rest
  | [] => false

/-- `validateNoBoldMarkers` of `parser.ts`. -/
def validateNoBoldMarkers (text : List Char) (lineNumber : Nat) : Except ParseErr Unit :=
  if hasDoubleStar text then
    .error ⟨"Unbalanced bold markers in text", lineNumber⟩
  else
    .ok ()

/-- The case-insensitive marker regexes of `parser.ts`
(only matched after the exact markers have failed). -/
def caseInsensitiveMarker (content : List Char) : Bool :=
  "**q:**".data.isPrefixOf content || "**Q:**".data.isPrefixOf content ||
  "**if:**".data.isPrefixOf content || "**If:**".data.isPrefixOf content ||
  "**iF:**".data.isPrefixOf content || "**IF:**".data.isPrefixOf content

/-- Match of the unknown-marker regex on the content: two asterisks, a
non-empty run of non-asterisk characters ending in a colon, then two
asterisks; returns the captured word. -/
def otherBoldMatch (content : List Char) : Option (List Char) :=
  if "**".data.isPrefixOf content then
    let r := (content.drop 2).takeWhile (fun c => !(c == '*'))
    if 2 ≤ r.length ∧ r.getLast? = some ':' ∧
        "**".data.isPrefixOf (content.drop (2 + r.length)) then
      some r.dropLast
    else none
  else none

/-- Classification of a list item content after the dash-space prefix
(the inner part of the list-item branch of `parseLines`). -/
def classifyContent (n indentLevel sp : Nat) (content : List Char) :
    Except ParseErr ParsedLine :=
  if "**Q:**".data.isPrefixOf content then
    let text := trimChars (content.drop 6)
    if text.isEmpty then
      .error ⟨"**Q:** marker requires non-empty text", n⟩
    else
      match validateNoBoldMarkers text n with
      | .error e => .error e
      | .ok _ => .ok ⟨n, .question indentLevel (String.mk text) sp⟩
  else if "**IF:**".data.isPrefixOf content then
    let text := trimChars (content.drop 7)
    if text.isEmpty then
      .error ⟨"**IF:** marker requires non-empty text", n⟩
    else
      match validateNoBoldMarkers text n with
      | .error e => .error e
      | .ok _ => .ok ⟨n, .cond indentLevel (String.mk text) sp⟩
  else if caseInsensitiveMarker content then
    .error ⟨"Markers must be exactly **Q:** or **IF:** (case-sensitive)", n⟩
  else
    match otherBoldMatch content with
    | some w =>
        .error ⟨"Unknown bold marker (got: **" ++ String.mk w ++ ":**)", n⟩
    | none =>
        .error ⟨"List item must start with **Q:** or **IF:**", n⟩

/-- Classification of a single line (one iteration of the loop in
`parseLines`). -/
def classifyLine (n : Nat) (l : List Char) : Except ParseErr ParsedLine :=
  if l.all isWsChar then
    .ok ⟨n, .blank⟩
  else
    match headingMatch l with
    | some (lvl, txt) => .ok ⟨n, .heading lvl (String.mk txt)⟩
    | none =>
      match listMatch l with
      | some (sp, content) =>
          if sp % 2 ≠ 0 then
            .error ⟨"Indent must be multiple of 2 spaces (got " ++
              toString sp ++ " spaces)", n⟩
          else
            classifyContent n (sp / 2) sp content
      | none =>
          if l.head? = some '#' then
            .error ⟨"Invalid heading format", n⟩
          else
            .error ⟨"Invalid line format", n⟩

/-- The loop of `parseLines`: 1-indexed line numbers; the synthetic empty
final segment produced by the trailing newline is skipped. -/
def parseLinesGo (n : Nat) : List (List Char) → Except ParseErr (List ParsedLine)
  | [] => .ok []
  | [l] =>
      if l.isEmpty then .ok []
      else
        match classifyLine n l with
        | .error e => .error e
        | .ok p => .ok [p]
  | l :: rest =>
      match classifyLine n l with
      | .error e => .error e
      | .ok p =>
          match parseLinesGo (n + 1) rest with
          | .error e => .error e
          | .ok ps => .ok (p :: ps)

/-- `parseLines` of `parser.ts`. -/
def parseLines (lines : List (List Char)) : Except ParseErr (List ParsedLine) :=
  parseLinesGo 1 lines

/-! ## Tree builder (`buildAST` in `parser.ts`)

The source mutates nodes in place: a node is attached to its parent when it is
created and receives its own children later through the shared reference. The
pure embedding keeps nodes on the stacks while they are open and attaches each
node to its parent when it is popped, which yields the same completed tree with
the same sibling order (a node is always popped before its next sibling is
pushed). -/

/-- An open (still mutable in the source) question or condition node on the
node stack, holding the children accumulated so far. -/
inductive PNode : Type where
  | q (text : String) (lineNumber : Nat) (children : List IfNode)
  | i (answer : String) (lineNumber : Nat) (children : List QuestionNode)

/-- Attach a finished node to the open node below it on the stack (in the
source the child was already stored in the parent's `children` array; here the
append happens when the child is closed). The stacks built by `buildAST`
strictly alternate question/condition, so the identity fallback is never
reached. -/
def attachNode (child below : PNode) : PNode :=
  match child, below with
  | .q t ln cs, .i a ln2 qs => .i a ln2 (qs ++ [QuestionNode.mk "" t cs ln])
  | .i a ln cs, .q t ln2 ifs => .q t ln2 (ifs ++ [IfNode.mk a cs ln])
  | _, b => b

/-- An open topic on the topic stack. -/
structure PartialTopic where
  level : Nat
  title : String
  lineNumber : Nat
  children : List TopicNode
  questions : List QuestionNode

/-- State of the `buildAST` loop. The node stack and topic stack keep their
top element at the head. -/
structure BuildState where
  rootQuestions : List QuestionNode
  topics : List TopicNode
  topicStack : List PartialTopic
  nodeStack : List (PNode × Nat)

/-- Pop the node stack while its top has indent level ≥ n, attaching each
popped node to the node below it (`while` loops of `buildAST`). -/
def popCarry (n : Nat) (c : PNode × Nat) : List (PNode × Nat) → List (PNode × Nat)
  | [] => if n ≤ c.2 then [] else [c]
  | y :: rest =>
      if n ≤ c.2 then popCarry n (attachNode c.1 y.1, y.2) rest
      else c :: y :: rest

def popGE (n : Nat) : List (PNode × Nat) → List (PNode × Nat)
  | [] => []
  | x :: rest => popCarry n x rest

/-- Collapse the whole node stack into its bottom node. -/
def collapseCarry (c : PNode) : List (PNode × Nat) → PNode
  | [] => c
  | y :: rest => collapseCarry (attachNode c y.1) rest

def collapseAll : List (PNode × Nat) → Option PNode
  | [] => none
  | x :: rest => some (collapseCarry x.1 rest)

/-- Close the bottom of the node stack as a finished root question (the bottom
of a non-empty node stack is always a question pushed at indent 0, with its id
still unassigned). -/
def closeRoot : Option PNode → Option QuestionNode
  | some (.q t ln cs) => some (.mk "" t cs ln)
  | _ => none

/-- Clearing of the node stack (`nodeStack.length = 0` in the source): the
chain root, which the source had attached to the current topic or the document
when it was created, is attached here instead. The current topic is the top of
the topic stack whenever that stack is non-empty. -/
def flushNodeStack (st : BuildState) : BuildState :=
  match closeRoot (collapseAll st.nodeStack) with
  | none => { st with nodeStack := [] }
  | some q =>
    match st.topicStack with
    | [] => { st with rootQuestions := st.rootQuestions ++ [q], nodeStack := [] }
    | t :: ts =>
        { st with
          topicStack := { t with questions := t.questions ++ [q] } :: ts,
          nodeStack := [] }

def closeTopic (t : PartialTopic) : TopicNode :=
  .mk t.level t.title t.children t.questions t.lineNumber

/-- Pop the topic stack while its top has level ≥ lvl, attaching each popped
topic to its parent (or to the document's top-level topics). -/
def popTopicsCarry (lvl : Nat) (topics : List TopicNode) (t : PartialTopic) :
    List PartialTopic → List TopicNode × List PartialTopic
  | [] =>
      if lvl ≤ t.level then (topics ++ [closeTopic t], []) else (topics, [t])
  | t2 :: ts =>
      if lvl ≤ t.level then
        popTopicsCarry lvl topics
          { t2 with children := t2.children ++ [closeTopic t] } ts
      else (topics, t :: t2 :: ts)

def popTopicsGo (lvl : Nat) (topics : List TopicNode) :
    List PartialTopic → List TopicNode × List PartialTopic
  | [] => (topics, [])
  | t :: ts => popTopicsCarry lvl topics t ts

/-- Heading line processing in `buildAST`: clear the node stack, pop topics of
level ≥ the new level, push the new topic. -/
def stepHeading (st : BuildState) (lvl : Nat) (title : String) (ln : Nat) :
    BuildState :=
  let st1 := flushNodeStack st
  let r := popTopicsGo lvl st1.topics st1.topicStack
  { st1 with topics := r.1, topicStack := ⟨lvl, title, ln, [], []⟩ :: r.2 }

/-- Question line processing in `buildAST`. -/
def stepQuestion (st : BuildState) (lvl : Nat) (text : String) (ln : Nat) :
    Except ParseErr BuildState :=
  if lvl = 0 then
    let st1 := flushNodeStack st
    .ok { st1 with nodeStack := [(.q text ln [], 0)] }
  else
    match popGE lvl st.nodeStack with
    | [] => .error ⟨"Q-node at non-zero indent must have a parent", ln⟩
    | (p, plv) :: rest =>
        match p with
        | .q _ _ _ =>
            .error ⟨"Q-node cannot be direct child of another Q-node", ln⟩
        | .i a ln2 cs =>
            .ok { st with nodeStack := (.q text ln [], lvl) :: (.i a ln2 cs, plv) :: rest }

/-- Condition line processing in `buildAST`. -/
def stepCond (st : BuildState) (lvl : Nat) (answer : String) (ln : Nat) :
    Except ParseErr BuildState :=
  if lvl = 0 then
    .error ⟨"**IF:** node cannot appear at indent level 0", ln⟩
  else
    match popGE lvl st.nodeStack with
    | [] => .error ⟨"IF-node must have a parent Q-node", ln⟩
    | (p, plv) :: rest =>
        match p with
        | .i _ _ _ =>
            .error ⟨"IF-node cannot be direct child of another IF-node", ln⟩
        | .q t ln2 cs =>
            .ok { st with nodeStack := (.i answer ln [], lvl) :: (.q t ln2 cs, plv) :: rest }

/-- One iteration of the `buildAST` loop. -/
def buildStep (st : BuildState) (l : ParsedLine) : Except ParseErr BuildState :=
  match l.kind with
  | .blank => .ok st
  | .heading lvl title => .ok (stepHeading st lvl title l.lineNumber)
  | .question lvl text _ => stepQuestion st lvl text l.lineNumber
  | .cond lvl answer _ => stepCond st lvl answer l.lineNumber

def buildGo (st : BuildState) : List ParsedLine → Except ParseErr BuildState
  | [] => .ok st
  | l :: rest =>
      match buildStep st l with
      | .error e => .error e
      | .ok st2 => buildGo st2 rest

/-- After the loop: close whatever is still open and read off the document. -/
def finalize (st : BuildState) : DSMDocument :=
  let st1 := flushNodeStack st
  let r := popTopicsGo 0 st1.topics st1.topicStack
  ⟨st1.rootQuestions, r.1⟩

/-- `buildAST` of `parser.ts`. -/
def buildAST (ls : List ParsedLine) : Except ParseErr DSMDocument :=
  match buildGo ⟨[], [], [], []⟩ ls with
  | .error e => .error e
  | .ok st => .ok (finalize st)

/-! ## Question counting (`countQuestions`, `countNestedQuestions`) -/

mutual

/-- `countNestedQuestions` of `parser.ts`. -/
def countNestedQuestions : QuestionNode → Nat
  | .mk _ _ cs _ => countNestedIfList cs

def countNestedIfList : List IfNode → Nat
  | [] => 0
  | .mk _ qs _ :: rest =>
      qs.length + countNestedInner qs + countNestedIfList rest

def countNestedInner : List QuestionNode → Nat
  | [] => 0
  | q :: rest => countNestedQuestions q + countNestedInner rest

end

mutual

/-- `countQuestions` of `parser.ts` (total questions under a topic, nested
topics and nested questions included). -/
def countQuestions : TopicNode → Nat
  | .mk _ _ children questions _ =>
      questions.length + countQuestionsTopicList children +
        countNestedInner questions

def countQuestionsTopicList : List TopicNode → Nat
  | [] => 0
  | t :: rest => countQuestions t + countQuestionsTopicList rest

end

/-! ## Identifier assignment (`assignQuestionIds`) -/

mutual

/-- `visitQuestion` of `assignQuestionIds`: assign the counter to this node,
then thread the counter through the question children of each condition
child, in order. -/
def assignQ (c : Nat) : QuestionNode → QuestionNode × Nat
  | .mk _ t cs ln =>
      let r := assignIfList (c + 1) cs
      (.mk ("Q" ++ toString c) t r.1 ln, r.2)

def assignIfList (c : Nat) : List IfNode → List IfNode × Nat
  | [] => ([], c)
  | i :: rest =>
      let r1 := assignIf c i
      let r2 := assignIfList r1.2 rest
      (r1.1 :: r2.1, r2.2)

def assignIf (c : Nat) : IfNode → IfNode × Nat
  | .mk a qs ln =>
      let r := assignQList c qs
      (.mk a r.1 ln, r.2)

def assignQList (c : Nat) : List QuestionNode → List QuestionNode × Nat
  | [] => ([], c)
  | q :: rest =>
      let r1 := assignQ c q
      let r2 := assignQList r1.2 rest
      (r1.1 :: r2.1, r2.2)

end

mutual

/-- `visitTopic` of `assignQuestionIds`: direct questions first, then child
topics. -/
def assignTopic (c : Nat) : TopicNode → TopicNode × Nat
  | .mk lvl title children questions ln =>
      let r1 := assignQList c questions
      let r2 := assignTopicList r1.2 children
      (.mk lvl title r2.1 r1.1 ln, r2.2)

def assignTopicList (c : Nat) : List TopicNode → List TopicNode × Nat
  | [] => ([], c)
  | t :: rest =>
      let r1 := assignTopic c t
      let r2 := assignTopicList r1.2 rest
      (r1.1 :: r2.1, r2.2)

end

/-- `assignQuestionIds` of `parser.ts`: counter starts at 1, orphan questions
first, then the topics in document order. -/
def assignQuestionIds (doc : DSMDocument) : DSMDocument :=
  let r1 := assignQList 1 doc.rootQuestions
  let r2 := assignTopicList r1.2 doc.topics
  ⟨r1.1, r2.1⟩

/-! ## Parse entry point (`parse` in `parser.ts`) -/

/-- JS `replace` of carriage-return/line-feed pairs by line feeds. -/
def normalizeNewlines : List Char → List Char
  | '\r' :: '\n' :: rest => '\n' :: normalizeNewlines rest
  | c :: rest => c :: normalizeNewlines rest
  | [] => []

/-- JS `split` on the line-feed character. -/
def splitByNewline : List Char → List (List Char)
  | [] => [[]]
  | '\n' :: rest => [] :: splitByNewline rest
  | c :: rest =>
      match splitByNewline rest with
      | [] => [[c]]
      | l :: ls => (c :: l) :: ls

/-- JS `includes` check for a tab character. -/
def containsTab : List Char → Bool
  | [] => false
  | c :: rest => if c = '\t' then true else containsTab rest

/-- Tab pre-scan: 1-indexed number of the first line containing a tab. -/
def findTab (i : Nat) : List (List Char) → Option Nat
  | [] => none
  | l :: rest => if containsTab l then some (i + 1) else findTab (i + 1) rest

/-- `parse` of `parser.ts`. -/
def parse (markdown : String) : Except ParseErr DSMDocument :=
  if markdown.data.isEmpty then
    .error ⟨"Document must contain at least one Q-node", 0⟩
  else if markdown.data.getLast? ≠ some '\n' then
    .error ⟨"Document must end with newline character", 0⟩
  else
    let lines := splitByNewline (normalizeNewlines markdown.data)
    match findTab 0 lines with
    | some n => .error ⟨"Tabs are not allowed; use spaces only", n⟩
    | none =>
      match parseLines lines with
      | .error e => .error e
      | .ok pls =>
        match buildAST pls with
        | .error e => .error e
        | .ok doc =>
            if doc.rootQuestions.isEmpty &&
                doc.topics.all (fun t => countQuestions t == 0) then
              .error ⟨"Document must contain at least one Q-node", 0⟩
            else
              .ok (assignQuestionIds doc)

/-! ## Converters (`converters.ts`) -/

mutual

/-- `visitQuestion` of `collectAllQuestions`: this node, then the question
children of each condition child, recursively. -/
def collectQ (q : QuestionNode) : List QuestionNode :=
  match q with
  | .mk i t cs ln => .mk i t cs ln :: collectIfList cs

def collectIfList : List IfNode → List QuestionNode
  | [] => []
  | .mk _ qs _ :: rest => collectQList qs ++ collectIfList rest

def collectQList : List QuestionNode → List QuestionNode
  | [] => []
  | q :: rest => collectQ q ++ collectQList rest

end

mutual

/-- `visitTopic` of `collectAllQuestions`: direct questions, then child
topics. -/
def collectTopic : TopicNode → List QuestionNode
  | .mk _ _ children questions _ =>
      collectQList questions ++ collectTopicList children

def collectTopicList : List TopicNode → List QuestionNode
  | [] => []
  | t :: rest => collectTopic t ++ collectTopicList rest

end

/-- `collectAllQuestions` of `converters.ts`. -/
def collectAllQuestions (doc : DSMDocument) : List QuestionNode :=
  collectQList doc.rootQuestions ++ collectTopicList doc.topics

/-- One global single-character replacement pass, the semantics of the JS
`replace` calls in `escapeForMermaid`. -/
def replaceAllChar (c : Char) (r : List Char) : List Char → List Char
  | [] => []
  | x :: rest => (if x = c then r else [x]) ++ replaceAllChar c r rest

/-- `escapeForMermaid` of `converters.ts`: the five replacement passes in
source order. -/
def escapeForMermaid (text : String) : String :=
  String.mk (replaceAllChar ']' "#93;".data
    (replaceAllChar '[' "#91;".data
      (replaceAllChar '>' "&gt;".data
        (replaceAllChar '<' "&lt;".data
          (replaceAllChar '"' "&quot;".data text.data)))))

/-- A node-declaration line of `generateMermaid`. -/
def mermaidNodeLine (q : QuestionNode) : String :=
  "    " ++ q.id ++ "[\"Q: " ++ escapeForMermaid q.text ++ "\"]"

mutual

/-- `generateEdges` of `generateMermaid`: one edge per condition child and
question grandchild, recursing into the grandchild right after its edge. -/
def generateEdges : QuestionNode → List String
  | .mk qid _ cs _ => edgesIfList qid cs

def edgesIfList (qid : String) : List IfNode → List String
  | [] => []
  | .mk a qs _ :: rest => edgesChildren qid a qs ++ edgesIfList qid rest

def edgesChildren (qid a : String) : List QuestionNode → List String
  | [] => []
  | .mk cid t ccs ln :: rest =>
      ("    " ++ qid ++ " -->|" ++ a ++ "| " ++ cid)
        :: generateEdges (.mk cid t ccs ln) ++ edgesChildren qid a rest

end

mutual

/-- `visitTopicForEdges` of `generateMermaid`. -/
def edgesTopic : TopicNode → List String
  | .mk _ _ children questions _ =>
      edgesQList questions ++ edgesTopicList children

def edgesQList : List QuestionNode → List String
  | [] => []
  | q :: rest => generateEdges q ++ edgesQList rest

def edgesTopicList : List TopicNode → List String
  | [] => []
  | t :: rest => edgesTopic t ++ edgesTopicList rest

end

/-- JS `Array.prototype.join` with a line-feed separator. -/
def joinLines : List String → String
  | [] => ""
  | [s] => s
  | s :: rest => s ++ "\n" ++ joinLines rest

/-- `generateMermaid` of `converters.ts`: the header, one node line per
collected question, then the edges of the root questions followed by the
edges of the topics. -/
def generateMermaid (doc : DSMDocument) : String :=
  joinLines (("graph TD" :: (collectAllQuestions doc).map mermaidNodeLine) ++
    (edgesQList doc.rootQuestions ++ edgesTopicList doc.topics))

/-- `toMermaid` of `converters.ts` (`parse` composed with `generateMermaid`;
the thrown ParseError becomes the error value). -/
def toMermaid (markdown : String) : Except ParseErr String :=
  match parse markdown with
  | .error e => .error e
  | .ok doc => .ok (generateMermaid doc)

/-- JS `'    '.repeat(indent)` used by `generateInk`. -/
def strRepeat (s : String) : Nat → String
  | 0 => ""
  | n + 1 => s ++ strRepeat s n

mutual

/-- `generateQuestion` of `generateInk`: the question line, then (when there
are condition children) one blank line and the condition blocks. -/
def inkQuestion (indent : Nat) : QuestionNode → List String
  | .mk _ t cs _ =>
      (strRepeat "    " indent ++ "Q: " ++ t) ::
        (if cs.isEmpty then [] else "" :: inkIfList indent cs)

def inkIfList (indent : Nat) : List IfNode → List String
  | [] => []
  | .mk a qs _ :: rest =>
      ((strRepeat "    " indent ++ "+ " ++ a) :: inkChildren indent qs) ++
        inkIfList indent rest

def inkChildren (indent : Nat) : List QuestionNode → List String
  | [] => []
  | q :: rest => inkQuestion (indent + 1) q ++ inkChildren indent rest

end

mutual

/-- `generateTopic` of `generateInk`. -/
def inkTopic : TopicNode → List String
  | .mk _ _ children questions _ =>
      inkQList questions ++ inkTopicList children

def inkQList : List QuestionNode → List String
  | [] => []
  | q :: rest => inkQuestion 0 q ++ inkQList rest

def inkTopicList : List TopicNode → List String
  | [] => []
  | t :: rest => inkTopic t ++ inkTopicList rest

end

/-- `generateInk` of `converters.ts`. -/
def generateInk (doc : DSMDocument) : String :=
  joinLines (inkQList doc.rootQuestions ++ inkTopicList doc.topics)

/-- `toInk` of `converters.ts`. -/
def toInk (markdown : String) : Except ParseErr String :=
  match parse markdown with
  | .error e => .error e
  | .ok doc => .ok (generateInk doc)

/-! ## Subtree sizes (for stating the identifier claim) -/

mutual

/-- Number of question nodes in the subtree rooted at a question. -/
def qCount : QuestionNode → Nat
  | .mk _ _ cs _ => 1 + ifListCount cs

def ifCount : IfNode → Nat
  | .mk _ qs _ => qListCount qs

def ifListCount : List IfNode → Nat
  | [] => 0
  | i :: rest => ifCount i + ifListCount rest

def qListCount : List QuestionNode → Nat
  | [] => 0
  | q :: rest => qCount q + qListCount rest

end

mutual

/-- Number of question nodes under a topic, nested topics included. -/
def topicCount : TopicNode → Nat
  | .mk _ _ children questions _ =>
      qListCount questions + topicListCount children

def topicListCount : List TopicNode → Nat
  | [] => 0
  | t :: rest => topicCount t + topicListCount rest

end

/-- Total number of question nodes of a document. -/
def docCount (doc : DSMDocument) : Nat :=
  qListCount doc.rootQuestions + topicListCount doc.topics

/-- The identifier sequence starting at counter k: Qk, Q(k+1), ... (n ids). -/
def rangeIds (k : Nat) : Nat → List String
  | 0 => []
  | n + 1 => ("Q" ++ toString k) :: rangeIds (k + 1) n

/-! ## Specification-side renderer descriptions (for the refinement claims)

These definitions are written from the spec's words (§4.5, §4.6), to be
compared with the translations of `generateMermaid` and `generateInk`. -/

/-- Spec escaping table for node text, applied as a simultaneous
per-character substitution. -/
def escMermaidChar (c : Char) : List Char :=
  if c = '"' then "&quot;".data
  else if c = '<' then "&lt;".data
  else if c = '>' then "&gt;".data
  else if c = '[' then "#91;".data
  else if c = ']' then "#93;".data
  else [c]

/-- Node text escaped per the spec table. -/
def escapeSpec (s : String) : String :=
  String.mk (s.data.map escMermaidChar).flatten

/-- Spec node-declaration line for one question. -/
def mermaidNodeLineSpec (q : QuestionNode) : String :=
  "    " ++ q.id ++ "[\"Q: " ++ escapeSpec q.text ++ "\"]"

/-- Spec edge line for one (source id, answer, target id) triple; the answer
text appears verbatim, unescaped. -/
def mermaidEdgeLineSpec (e : String × String × String) : String :=
  "    " ++ e.1 ++ " -->|" ++ e.2.1 ++ "| " ++ e.2.2

mutual

/-- Pre-order second pass of the spec: one triple per
question → condition → child-question edge, visiting each child's subtree
right after its incoming edge. -/
def triplesQ : QuestionNode → List (String × String × String)
  | .mk qid _ cs _ => triplesIfList qid cs

def triplesIfList (qid : String) : List IfNode → List (String × String × String)
  | [] => []
  | .mk a qs _ :: rest => triplesTargets qid a qs ++ triplesIfList qid rest

def triplesTargets (qid a : String) :
    List QuestionNode → List (String × String × String)
  | [] => []
  | .mk cid t ccs ln :: rest =>
      (qid, a, cid) :: (triplesQ (.mk cid t ccs ln) ++ triplesTargets qid a rest)

end

mutual

def triplesTopic : TopicNode → List (String × String × String)
  | .mk _ _ children questions _ =>
      triplesQList questions ++ triplesTopicList children

def triplesQList : List QuestionNode → List (String × String × String)
  | [] => []
  | q :: rest => triplesQ q ++ triplesQList rest

def triplesTopicList : List TopicNode → List (String × String × String)
  | [] => []
  | t :: rest => triplesTopic t ++ triplesTopicList rest

end

/-- All edge triples of a document, in pre-order. -/
def docTriples (doc : DSMDocument) : List (String × String × String) :=
  triplesQList doc.rootQuestions ++ triplesTopicList doc.topics

/-- Spec description of the diagram renderer output (§4.5): header line, one
node line per question in pre-order, then one edge line per triple in
pre-order, newline-joined with no trailing newline. -/
def mermaidSpec (doc : DSMDocument) : String :=
  joinLines
    (("graph TD" :: (collectAllQuestions doc).map mermaidNodeLineSpec) ++
      (docTriples doc).map mermaidEdgeLineSpec)

/-- Spec indentation for the narrative renderer: 4 spaces per depth level. -/
def inkIndentSpec (d : Nat) : String :=
  String.mk (List.replicate (4 * d) ' ')

mutual

/-- Spec description of the narrative renderer lines for one question at a
given depth (§4.6): the question line with literal text; when there are
condition children, one blank line and then, per condition, its answer line
at the same indent followed by its question children at depth+1. -/
def inkSpecQ (d : Nat) : QuestionNode → List String
  | .mk _ t cs _ =>
      (inkIndentSpec d ++ "Q: " ++ t) ::
        (if cs.isEmpty then [] else "" :: inkSpecIfs d cs)

def inkSpecIfs (d : Nat) : List IfNode → List String
  | [] => []
  | .mk a qs _ :: rest =>
      ((inkIndentSpec d ++ "+ " ++ a) :: inkSpecTargets d qs) ++ inkSpecIfs d rest

def inkSpecTargets (d : Nat) : List QuestionNode → List String
  | [] => []
  | q :: rest => inkSpecQ (d + 1) q ++ inkSpecTargets d rest

end

mutual

def inkSpecTopic : TopicNode → List String
  | .mk _ _ children questions _ =>
      inkSpecQList questions ++ inkSpecTopicList children

def inkSpecQList : List QuestionNode → List String
  | [] => []
  | q :: rest => inkSpecQ 0 q ++ inkSpecQList rest

def inkSpecTopicList : List TopicNode → List String
  | [] => []
  | t :: rest => inkSpecTopic t ++ inkSpecTopicList rest

end

/-- Spec description of the narrative renderer output (§4.6). -/
def inkSpec (doc : DSMDocument) : String :=
  joinLines (inkSpecQList doc.rootQuestions ++ inkSpecTopicList doc.topics)

/-- The five-line document of the branching scenario (§8 of the spec). -/
def c2Input : String :=
  "- **Q:** Did you send the email?\n  - **IF:** \"Yes\"\n    - **Q:** Why did you copy the competitor?\n  - **IF:** \"No\"\n    - **Q:** How is that possible?\n"

/-- The document the branching scenario parses to. -/
def c2Doc : DSMDocument :=
  ⟨[.mk "Q1" "Did you send the email?"
      [.mk "\"Yes\"" [.mk "Q2" "Why did you copy the competitor?" [] 3] 2,
       .mk "\"No\"" [.mk "Q3" "How is that possible?" [] 5] 4] 1], []⟩

/-! ## General helper lemmas -/

theorem all_false_of_mem {α} (p : α → Bool) {l : List α} {c : α}
    (hm : c ∈ l) (hc : p c = false) : l.all p = false := by
  cases h : l.all p with
  | false => rfl
  | true => exact absurd (List.all_eq_true.mp h c hm) (by simp [hc])

theorem takeWhile_replicate_append {α} (p : α → Bool) (c c2 : α) (k : Nat)
    (t : List α) (h1 : p c = true) (h2 : p c2 = false) :
    (List.replicate k c ++ c2 :: t).takeWhile p = List.replicate k c := by
  induction k with
  | zero => simp [List.takeWhile_cons, h2]
  | succ k ih => simp [List.replicate_succ, List.takeWhile_cons, h1, ih]

theorem normalizeNewlines_eq_self :
    ∀ (l : List Char), '\r' ∉ l → normalizeNewlines l = l := by
  intro l
  induction l using normalizeNewlines.induct with
  | case1 rest ih =>
      intro h
      exact absurd (List.mem_cons_self _ _) h
  | case2 c rest hne ih =>
      intro h
      have hc : c ≠ '\r' := fun e => h (e ▸ List.mem_cons_self _ _)
      have hr : '\r' ∉ rest := fun hm => h (List.mem_cons_of_mem _ hm)
      have step : normalizeNewlines (c :: rest) = c :: normalizeNewlines rest := by
        rw [normalizeNewlines.eq_def]
        split
        · rename_i rest2 hx heq
          exact absurd (List.cons.inj heq).1 hc
        · rename_i x c2 rest2 hx heq
          rw [← (List.cons.inj heq).1, ← (List.cons.inj heq).2]
        · rename_i x heq
          exact absurd heq (by simp)
      rw [step, ih hr]
  | case3 =>
      intro h
      rfl

theorem splitByNewline_cons (c : Char) (l : List Char) (hc : c ≠ '\n') :
    splitByNewline (c :: l) =
      match splitByNewline l with
      | [] => [[c]]
      | x :: xs => (c :: x) :: xs := by
  rw [splitByNewline.eq_def]
  split
  · rename_i heq
    exact absurd heq (by simp)
  · rename_i rest heq
    exact absurd (List.cons.inj heq).1 hc
  · rename_i x c2 rest2 hx heq
    obtain ⟨e1, e2⟩ := List.cons.inj heq
    rw [← e1, ← e2]

theorem splitByNewline_append :
    ∀ (a rest : List Char), '\n' ∉ a →
      splitByNewline (a ++ '\n' :: rest) = a :: splitByNewline rest := by
  intro a
  induction a with
  | nil =>
      intro rest h
      rfl
  | cons c t ih =>
      intro rest h
      have hc : c ≠ '\n' := fun e => h (e ▸ List.mem_cons_self _ _)
      have ht : '\n' ∉ t := fun hm => h (List.mem_cons_of_mem _ hm)
      rw [List.cons_append, splitByNewline_cons c _ hc, ih rest ht]

theorem containsTab_eq_false :
    ∀ (l : List Char), '\t' ∉ l → containsTab l = false := by
  intro l
  induction l with
  | nil => intro h; rfl
  | cons c t ih =>
      intro h
      have hc : c ≠ '\t' := fun e => h (e ▸ List.mem_cons_self _ _)
      have ht : '\t' ∉ t := fun hm => h (List.mem_cons_of_mem _ hm)
      simp [containsTab, hc, ih ht]

/-! ## Classifier lemmas -/

theorem listMatch_eq_some {l : List Char} {sp : Nat} {content : List Char}
    (h : listMatch l = some (sp, content)) :
    (l.takeWhile (fun c => c == ' ')).length = sp ∧
      l.drop sp = '-' :: ' ' :: content := by
  simp only [listMatch] at h
  split at h
  · rename_i c2 heq
    obtain ⟨e1, e2⟩ := Prod.mk.injEq .. ▸ Option.some.inj h
    subst e1
    subst e2
    exact ⟨rfl, heq⟩
  · exact absurd h (by simp)

theorem not_blank_of_listMatch {l : List Char} {sp : Nat} {content : List Char}
    (h : listMatch l = some (sp, content)) : l.all isWsChar = false := by
  obtain ⟨hsp, hdrop⟩ := listMatch_eq_some h
  have hm : '-' ∈ l := List.drop_subset _ _ (hdrop ▸ List.mem_cons_self _ _)
  exact all_false_of_mem _ hm rfl

theorem headingMatch_eq_none_of_head {l : List Char} (h : l.head? ≠ some '#') :
    headingMatch l = none := by
  have htw : l.takeWhile (fun c => c == '#') = [] := by
    cases l with
    | nil => rfl
    | cons c t =>
        have hc : (c == '#') = false := by
          simp only [List.head?] at h
          simp only [beq_eq_false_iff_ne, ne_eq]
          exact fun e => h (by rw [e])
        simp [List.takeWhile_cons, hc]
  simp [headingMatch, htw]

theorem head_of_listMatch {l : List Char} {sp : Nat} {content : List Char}
    (h : listMatch l = some (sp, content)) : l.head? ≠ some '#' := by
  obtain ⟨hsp, hdrop⟩ := listMatch_eq_some h
  cases l with
  | nil => simp at hdrop
  | cons c t =>
      cases sp with
      | zero =>
          simp only [List.drop_zero] at hdrop
          rw [(List.cons.inj hdrop).1]
          simp
      | succ m =>
          have hc : (c == ' ') = true := by
            by_contra hcc
            rw [List.takeWhile_cons, Bool.eq_false_iff.mpr hcc] at hsp
            simp at hsp
          rw [show c = ' ' from by simpa using hc]
          simp

theorem classify_invalid_indent (n : Nat) {l content : List Char} {sp : Nat}
    (h : listMatch l = some (sp, content)) (hodd : sp % 2 ≠ 0) :
    classifyLine n l = .error
      ⟨"Indent must be multiple of 2 spaces (got " ++ toString sp ++
        " spaces)", n⟩ := by
  unfold classifyLine
  rw [not_blank_of_listMatch h, headingMatch_eq_none_of_head (head_of_listMatch h), h]
  simp [hodd]

theorem classify_unmatched (n : Nat) (l : List Char)
    (hb : l.all isWsChar = false) (hh : headingMatch l = none)
    (hl : listMatch l = none) :
    classifyLine n l = .error
      ⟨if l.head? = some '#' then "Invalid heading format"
        else "Invalid line format", n⟩ := by
  unfold classifyLine
  rw [hb, hh, hl]
  by_cases h : l.head? = some '#' <;> simp [h]

theorem classify_heading_shape (n k : Nat) (rest : List Char) (h1 : 1 ≤ k)
    (h6 : k ≤ 6) (hne : rest ≠ []) :
    classifyLine n (List.replicate k '#' ++ ' ' :: rest) =
      .ok ⟨n, .heading k (String.mk rest)⟩ := by
  have hmem : '#' ∈ List.replicate k '#' ++ ' ' :: rest :=
    List.mem_append_left _ (List.mem_replicate.mpr ⟨by omega, rfl⟩)
  have hb := all_false_of_mem isWsChar hmem rfl
  have htw : (List.replicate k '#' ++ ' ' :: rest).takeWhile (fun c => c == '#')
      = List.replicate k '#' :=
    takeWhile_replicate_append _ '#' ' ' k rest rfl rfl
  have hdrop : (List.replicate k '#' ++ ' ' :: rest).drop k = ' ' :: rest := by
    have h := List.drop_left (List.replicate k '#') (' ' :: rest)
    rwa [List.length_replicate] at h
  have hre : rest.isEmpty = false := by
    cases rest with
    | nil => exact absurd rfl hne
    | cons a b => rfl
  have hhm : headingMatch (List.replicate k '#' ++ ' ' :: rest) = some (k, rest) := by
    simp only [headingMatch, htw, List.length_replicate, hdrop]
    rw [if_pos ⟨h1, h6⟩, hre]
    simp
  unfold classifyLine
  rw [hb, hhm]
  simp

theorem listMatch_replicate (k : Nat) (content : List Char) :
    listMatch (List.replicate k ' ' ++ '-' :: ' ' :: content) = some (k, content) := by
  have htw : (List.replicate k ' ' ++ '-' :: ' ' :: content).takeWhile
      (fun c => c == ' ') = List.replicate k ' ' :=
    takeWhile_replicate_append _ ' ' '-' k _ rfl rfl
  have hdrop : (List.replicate k ' ' ++ '-' :: ' ' :: content).drop k =
      '-' :: ' ' :: content := by
    have h := List.drop_left (List.replicate k ' ') ('-' :: ' ' :: content)
    rwa [List.length_replicate] at h
  simp only [listMatch, htw, List.length_replicate, hdrop]

/-! ## Parse-level lemmas -/

theorem parse_single_line_error (body : List Char) (e : ParseErr)
    (hr : '\r' ∉ body) (hn : '\n' ∉ body) (ht : '\t' ∉ body)
    (hcl : classifyLine 1 body = .error e) :
    parse (String.mk (body ++ ['\n'])) = .error e := by
  have hdata : (String.mk (body ++ ['\n'])).data = body ++ ['\n'] := rfl
  have hnorm : normalizeNewlines (body ++ ['\n']) = body ++ ['\n'] := by
    apply normalizeNewlines_eq_self
    intro hm
    rcases List.mem_append.mp hm with hm1 | hm2
    · exact hr hm1
    · simp at hm2
  have hsplit : splitByNewline (body ++ ['\n']) = [body, []] := by
    have h := splitByNewline_append body [] hn
    simpa using h
  have htab : findTab 0 [body, []] = none := by
    simp [findTab, containsTab_eq_false body ht, containsTab]
  have hpl : parseLines [body, []] = .error e := by
    simp [parseLines, parseLinesGo, hcl]
  unfold parse
  rw [hdata]
  rw [if_neg (by simp)]
  rw [if_neg (by simp [List.getLast?_append])]
  rw [hnorm, hsplit]
  simp only [htab, hpl]

theorem parse_odd_indent (k : Nat) :
    parse (String.mk ((List.replicate (2 * k + 1) ' ' ++ "- **Q:** x".data) ++
        ['\n'])) =
      .error ⟨"Indent must be multiple of 2 spaces (got " ++ toString (2 * k + 1) ++
        " spaces)", 1⟩ := by
  have hlit : "- **Q:** x".data = '-' :: ' ' :: "**Q:** x".data := rfl
  apply parse_single_line_error
  · intro hm
    rcases List.mem_append.mp hm with h1 | h2
    · exact absurd (List.eq_of_mem_replicate h1) (by decide)
    · exact absurd h2 (by decide)
  · intro hm
    rcases List.mem_append.mp hm with h1 | h2
    · exact absurd (List.eq_of_mem_replicate h1) (by decide)
    · exact absurd h2 (by decide)
  · intro hm
    rcases List.mem_append.mp hm with h1 | h2
    · exact absurd (List.eq_of_mem_replicate h1) (by decide)
    · exact absurd h2 (by decide)
  · rw [hlit]
    exact classify_invalid_indent 1 (listMatch_replicate (2 * k + 1) "**Q:** x".data)
      (by omega)

theorem buildStep_question_under_question (st : BuildState) (lvl : Nat)
    (text : String) (ln sp : Nat) (t : String) (ln2 : Nat) (cs : List IfNode)
    (plv : Nat) (rest : List (PNode × Nat)) (hpos : 0 < lvl)
    (hpop : popGE lvl st.nodeStack = (PNode.q t ln2 cs, plv) :: rest) :
    buildStep st ⟨ln, .question lvl text sp⟩ =
      .error ⟨"Q-node cannot be direct child of another Q-node", ln⟩ := by
  simp only [buildStep, stepQuestion]
  rw [if_neg (by omega), hpop]

theorem parse_empty_after_build (md : String) (pls : List ParsedLine)
    (doc : DSMDocument) (hne : md.data ≠ [])
    (hlast : md.data.getLast? = some '\n')
    (htab : findTab 0 (splitByNewline (normalizeNewlines md.data)) = none)
    (hpl : parseLines (splitByNewline (normalizeNewlines md.data)) = .ok pls)
    (hbuild : buildAST pls = .ok doc)
    (hroot : doc.rootQuestions = [])
    (htop : ∀ t ∈ doc.topics, countQuestions t = 0) :
    parse md = .error ⟨"Document must contain at least one Q-node", 0⟩ := by
  unfold parse
  rw [if_neg (by simp [hne])]
  rw [if_neg (by simp [hlast])]
  simp only [htab, hpl, hbuild]
  have hb : (doc.rootQuestions.isEmpty &&
      doc.topics.all fun t => countQuestions t == 0) = true := by
    rw [hroot]
    simp only [List.isEmpty_nil, Bool.true_and, List.all_eq_true, beq_iff_eq]
    exact htop
  simp [hb]

/-! ## Claim theorems -/

/-- C2: the five-line branching document parses to one orphan question Q1 with
condition children "Yes" and "No", each with one child question (Q2 and Q3),
and the Mermaid output contains the two labelled edges. -/
theorem claim_C2 :
    parse c2Input = .ok c2Doc ∧
    toMermaid c2Input = .ok (generateMermaid c2Doc) ∧
    "    Q1 -->|\"Yes\"| Q2".data ∈ splitByNewline (generateMermaid c2Doc).data ∧
    "    Q1 -->|\"No\"| Q3".data ∈ splitByNewline (generateMermaid c2Doc).data :=
  ⟨rfl, rfl, by decide, by decide⟩

/-- C4: parse fails with the EmptyDocument message at line 0 both immediately
on the empty input (before the missing-newline check, which the empty input
would also fail) and, for any input that survives classification and tree
building, when the document has no orphan questions and every topic counts
zero questions recursively — for example a document holding only a heading. -/
theorem claim_C4 :
    parse "" = .error ⟨"Document must contain at least one Q-node", 0⟩ ∧
    (∀ (md : String) (pls : List ParsedLine) (doc : DSMDocument),
      md.data ≠ [] → md.data.getLast? = some '\n' →
      findTab 0 (splitByNewline (normalizeNewlines md.data)) = none →
      parseLines (splitByNewline (normalizeNewlines md.data)) = .ok pls →
      buildAST pls = .ok doc → doc.rootQuestions = [] →
      (∀ t ∈ doc.topics, countQuestions t = 0) →
      parse md = .error ⟨"Document must contain at least one Q-node", 0⟩) ∧
    parse "# Title\n" = .error ⟨"Document must contain at least one Q-node", 0⟩ :=
  ⟨rfl, parse_empty_after_build, rfl⟩

theorem claim_C4_witness :
    parse "# Title\n" = .error ⟨"Document must contain at least one Q-node", 0⟩ :=
  claim_C4.2.1 "# Title\n" [⟨1, .heading 1 "Title"⟩] ⟨[], [.mk 1 "Title" [] [] 1]⟩
    (by decide) rfl rfl rfl rfl rfl (by decide)

/-- C5: the minimal newline-terminated document parses to one orphan question
with id Q1 and no topics; without the trailing newline parse fails with the
MissingFinalNewline message at line 0. -/
theorem claim_C5 :
    parse "- **Q:** X\n" = .ok ⟨[.mk "Q1" "X" [] 1], []⟩ ∧
    parse "- **Q:** X" = .error ⟨"Document must end with newline character", 0⟩ :=
  ⟨rfl, rfl⟩

/-- C6: when a question line at positive indent finds, after the stack pops,
a question node on top of the node stack, tree building fails with the
QuestionUnderQuestion message at that line; in particular the two-line
parent/child question document fails at line 2. -/
theorem claim_C6 :
    (∀ (st : BuildState) (lvl : Nat) (text : String) (ln sp : Nat) (t : String)
      (ln2 : Nat) (cs : List IfNode) (plv : Nat) (rest : List (PNode × Nat)),
      0 < lvl →
      popGE lvl st.nodeStack = (PNode.q t ln2 cs, plv) :: rest →
      buildStep st ⟨ln, .question lvl text sp⟩ =
        .error ⟨"Q-node cannot be direct child of another Q-node", ln⟩) ∧
    parse "- **Q:** Parent\n  - **Q:** Child\n" =
      .error ⟨"Q-node cannot be direct child of another Q-node", 2⟩ :=
  ⟨buildStep_question_under_question, rfl⟩

theorem claim_C6_witness :
    buildStep ⟨[], [], [], [(.q "Parent" 1 [], 0)]⟩ ⟨2, .question 1 "Child" 2⟩ =
      .error ⟨"Q-node cannot be direct child of another Q-node", 2⟩ :=
  claim_C6.1 ⟨[], [], [], [(.q "Parent" 1 [], 0)]⟩ 1 "Child" 2 2 "Parent" 1 [] 0 []
    (by decide) rfl

/-- C7: any line matching the list-item pattern whose leading-space count is
odd is classified as the InvalidIndent failure citing that exact count, and a
document whose first line has any odd leading-space count fails that way at
line 1. -/
theorem claim_C7 :
    (∀ (n : Nat) (l content : List Char) (sp : Nat),
      listMatch l = some (sp, content) → sp % 2 ≠ 0 →
      classifyLine n l = .error
        ⟨"Indent must be multiple of 2 spaces (got " ++ toString sp ++
          " spaces)", n⟩) ∧
    (∀ k : Nat,
      parse (String.mk ((List.replicate (2 * k + 1) ' ' ++ "- **Q:** x".data) ++
          ['\n'])) =
        .error ⟨"Indent must be multiple of 2 spaces (got " ++
          toString (2 * k + 1) ++ " spaces)", 1⟩) :=
  ⟨fun n _ _ _ h hodd => classify_invalid_indent n h hodd, parse_odd_indent⟩

theorem claim_C7_witness :
    classifyLine 1 "   - **Q:** a".data =
      .error ⟨"Indent must be multiple of 2 spaces (got 3 spaces)", 1⟩ :=
  claim_C7.1 1 "   - **Q:** a".data "**Q:** a".data 3 rfl (by decide)

/-- C8 counterexample: a malformed heading and stray text fail with two
different messages, so the single-error claim is false: the former yields
the message Invalid heading format, not the Invalid line format message
stray text yields. -/
theorem claim_C8_counterexample :
    parse "#bad\n" = .error ⟨"Invalid heading format", 1⟩ ∧
    parse "stray text\n" = .error ⟨"Invalid line format", 1⟩ ∧
    "Invalid heading format" ≠ "Invalid line format" :=
  ⟨rfl, rfl, by decide⟩

/-- C8 (amended): a non-blank line that is neither a valid heading nor a
list-item candidate fails at that line with the Invalid heading format
message when the line starts with a hash character, and with the Invalid
line format message otherwise. -/
theorem claim_C8 :
    (∀ (n : Nat) (l : List Char),
      l.all isWsChar = false → headingMatch l = none → listMatch l = none →
      classifyLine n l = .error
        ⟨if l.head? = some '#' then "Invalid heading format"
          else "Invalid line format", n⟩) ∧
    parse "####### seven\n" = .error ⟨"Invalid heading format", 1⟩ ∧
    parse "plain words\n" = .error ⟨"Invalid line format", 1⟩ :=
  ⟨classify_unmatched, rfl, rfl⟩

theorem claim_C8_witness :
    classifyLine 3 "#x7".data = .error ⟨"Invalid heading format", 3⟩ :=
  claim_C8.1 3 "#x7".data rfl rfl rfl

/-- C10: every line made of one to six hashes, a space and a non-empty
remainder is classified as a heading whose title is the remainder verbatim,
with no text validation; in particular a title containing a double asterisk
parses successfully with the double asterisk preserved. -/
theorem claim_C10 :
    (∀ (n k : Nat) (rest : List Char), 1 ≤ k → k ≤ 6 → rest ≠ [] →
      classifyLine n (List.replicate k '#' ++ ' ' :: rest) =
        .ok ⟨n, .heading k (String.mk rest)⟩) ∧
    parse "# a ** b\n- **Q:** X\n" =
      .ok ⟨[], [.mk 1 "a ** b" [] [.mk "Q1" "X" [] 2] 1]⟩ :=
  ⟨classify_heading_shape, rfl⟩

theorem claim_C10_witness :
    classifyLine 7 (List.replicate 2 '#' ++ ' ' :: "a ** b".data) =
      .ok ⟨7, .heading 2 "a ** b"⟩ :=
  claim_C10.1 7 2 "a ** b".data (by decide) (by decide) (by decide)

/-! ## Identifier assignment: pre-order sequence Q1..Qn (claim C1) -/

theorem rangeIds_add : ∀ (a c b : Nat),
    rangeIds c (a + b) = rangeIds c a ++ rangeIds (c + a) b := by
  intro a
  induction a with
  | zero => intro c b; simp [rangeIds]
  | succ a ih =>
      intro c b
      rw [show a + 1 + b = (a + b) + 1 from by omega]
      rw [rangeIds, ih (c + 1) b, rangeIds, List.cons_append]
      rw [show c + 1 + a = c + (a + 1) from by omega]

theorem rangeIds_length : ∀ (n c : Nat), (rangeIds c n).length = n := by
  intro n
  induction n with
  | zero => intro c; rfl
  | succ n ih => intro c; simp [rangeIds, ih]

theorem rangeIds_eq_map : ∀ (n k : Nat),
    rangeIds k n = (List.range n).map (fun i => "Q" ++ toString (k + i)) := by
  intro n
  induction n with
  | zero => intro k; rfl
  | succ n ih =>
      intro k
      rw [rangeIds, ih (k + 1), List.range_succ_eq_map, List.map_cons, List.map_map]
      refine congrArg₂ List.cons (by simp) (List.map_congr_left fun i hi => ?_)
      simp only [Function.comp_apply]
      rw [show k + 1 + i = k + i.succ from by omega]

mutual

theorem assignQ_counter : ∀ (c : Nat) (q : QuestionNode),
    (assignQ c q).2 = c + qCount q
  | c, .mk i t cs ln => by
      have h := assignIfList_counter (c + 1) cs
      simp [assignQ, qCount, h]
      omega

theorem assignIf_counter : ∀ (c : Nat) (i : IfNode),
    (assignIf c i).2 = c + ifCount i
  | c, .mk a qs ln => by
      have h := assignQList_counter c qs
      simp [assignIf, ifCount, h]

theorem assignIfList_counter : ∀ (c : Nat) (l : List IfNode),
    (assignIfList c l).2 = c + ifListCount l
  | c, [] => by simp [assignIfList, ifListCount]
  | c, i :: rest => by
      have h1 := assignIf_counter c i
      have h2 := assignIfList_counter (assignIf c i).2 rest
      simp only [assignIfList, ifListCount]
      rw [h2, h1]
      omega

theorem assignQList_counter : ∀ (c : Nat) (l : List QuestionNode),
    (assignQList c l).2 = c + qListCount l
  | c, [] => by simp [assignQList, qListCount]
  | c, q :: rest => by
      have h1 := assignQ_counter c q
      have h2 := assignQList_counter (assignQ c q).2 rest
      simp only [assignQList, qListCount]
      rw [h2, h1]
      omega

end

mutual

theorem collect_assignQ_ids : ∀ (c : Nat) (q : QuestionNode),
    (collectQ (assignQ c q).1).map QuestionNode.id = rangeIds c (qCount q)
  | c, .mk i t cs ln => by
      have h := collect_assignIfList_ids (c + 1) cs
      simp only [assignQ, collectQ, List.map_cons, QuestionNode.id, h, qCount]
      rw [show 1 + ifListCount cs = ifListCount cs + 1 from by omega, rangeIds]

theorem collect_assignIfList_ids : ∀ (c : Nat) (l : List IfNode),
    (collectIfList (assignIfList c l).1).map QuestionNode.id =
      rangeIds c (ifListCount l)
  | c, [] => by simp [assignIfList, collectIfList, ifListCount, rangeIds]
  | c, .mk a qs ln :: rest => by
      have h1 := collect_assignQList_ids c qs
      have h2 := collect_assignIfList_ids (assignIf c (.mk a qs ln)).2 rest
      have hc : (assignIf c (.mk a qs ln)).2 = c + qListCount qs := by
        rw [assignIf_counter]
        rfl
      rw [hc] at h2
      simp only [assignIfList, assignIf, collectIfList, List.map_append, ifListCount]
      rw [show ifCount (.mk a qs ln) + ifListCount rest =
        qListCount qs + ifListCount rest from by rw [ifCount]]
      rw [rangeIds_add (qListCount qs) c (ifListCount rest)]
      rw [show (assignQList c qs).2 = c + qListCount qs from assignQList_counter c qs]
      rw [h1, h2]

theorem collect_assignQList_ids : ∀ (c : Nat) (l : List QuestionNode),
    (collectQList (assignQList c l).1).map QuestionNode.id =
      rangeIds c (qListCount l)
  | c, [] => by simp [assignQList, collectQList, qListCount, rangeIds]
  | c, q :: rest => by
      have h1 := collect_assignQ_ids c q
      have h2 := collect_assignQList_ids (assignQ c q).2 rest
      rw [assignQ_counter c q] at h2
      simp only [assignQList, collectQList, List.map_append, qListCount]
      rw [rangeIds_add (qCount q) c (qListCount rest)]
      rw [show (assignQ c q).2 = c + qCount q from assignQ_counter c q]
      rw [h1, h2]

end

mutual

theorem assignTopic_counter : ∀ (c : Nat) (t : TopicNode),
    (assignTopic c t).2 = c + topicCount t
  | c, .mk lvl title children questions ln => by
      have h2 := assignTopicList_counter (assignQList c questions).2 children
      simp only [assignTopic, topicCount]
      rw [h2, assignQList_counter c questions]
      omega

theorem assignTopicList_counter : ∀ (c : Nat) (l : List TopicNode),
    (assignTopicList c l).2 = c + topicListCount l
  | c, [] => by simp [assignTopicList, topicListCount]
  | c, t :: rest => by
      have h2 := assignTopicList_counter (assignTopic c t).2 rest
      simp only [assignTopicList, topicListCount]
      rw [h2, assignTopic_counter c t]
      omega

end

mutual

theorem collect_assignTopic_ids : ∀ (c : Nat) (t : TopicNode),
    (collectTopic (assignTopic c t).1).map QuestionNode.id =
      rangeIds c (topicCount t)
  | c, .mk lvl title children questions ln => by
      have h1 := collect_assignQList_ids c questions
      have h2 := collect_assignTopicList_ids (assignQList c questions).2 children
      rw [assignQList_counter c questions] at h2
      simp only [assignTopic, collectTopic, List.map_append, topicCount]
      rw [rangeIds_add (qListCount questions) c (topicListCount children)]
      rw [show (assignQList c questions).2 = c + qListCount questions from
        assignQList_counter c questions]
      rw [h1, h2]

theorem collect_assignTopicList_ids : ∀ (c : Nat) (l : List TopicNode),
    (collectTopicList (assignTopicList c l).1).map QuestionNode.id =
      rangeIds c (topicListCount l)
  | c, [] => by simp [assignTopicList, collectTopicList, topicListCount, rangeIds]
  | c, t :: rest => by
      have h1 := collect_assignTopic_ids c t
      have h2 := collect_assignTopicList_ids (assignTopic c t).2 rest
      rw [assignTopic_counter c t] at h2
      simp only [assignTopicList, collectTopicList, List.map_append, topicListCount]
      rw [rangeIds_add (topicCount t) c (topicListCount rest)]
      rw [show (assignTopic c t).2 = c + topicCount t from assignTopic_counter c t]
      rw [h1, h2]

end

theorem assign_ids_doc (doc : DSMDocument) :
    (collectAllQuestions (assignQuestionIds doc)).map QuestionNode.id =
      rangeIds 1 (docCount doc) := by
  have h1 := collect_assignQList_ids 1 doc.rootQuestions
  have h2 := collect_assignTopicList_ids (assignQList 1 doc.rootQuestions).2 doc.topics
  rw [assignQList_counter 1 doc.rootQuestions] at h2
  simp only [assignQuestionIds, collectAllQuestions, docCount, List.map_append]
  rw [rangeIds_add (qListCount doc.rootQuestions) 1 (topicListCount doc.topics)]
  rw [show (assignQList 1 doc.rootQuestions).2 = 1 + qListCount doc.rootQuestions from
    assignQList_counter 1 doc.rootQuestions]
  rw [h1, h2]

theorem parse_ok_assign {md : String} {doc : DSMDocument}
    (h : parse md = .ok doc) : ∃ d0, doc = assignQuestionIds d0 := by
  simp only [parse] at h
  split at h
  · exact absurd h (by simp)
  split at h
  · exact absurd h (by simp)
  split at h
  · exact absurd h (by simp)
  split at h
  · exact absurd h (by simp)
  split at h
  · exact absurd h (by simp)
  split at h
  · exact absurd h (by simp)
  · exact ⟨_, (Except.ok.inj h).symm⟩

/-- C1: for every accepted input, the identifiers of the questions collected
in pre-order are exactly the sequence Q1..Qn (n the total question count):
orphan questions before topic questions, each parent before its descendants,
left siblings before right siblings, a topic's own questions before its
sub-topics' questions. -/
theorem claim_C1 :
    ∀ (md : String) (doc : DSMDocument), parse md = .ok doc →
      (collectAllQuestions doc).map QuestionNode.id =
        (List.range (collectAllQuestions doc).length).map
          (fun i => "Q" ++ toString (i + 1)) := by
  intro md doc h
  obtain ⟨d0, rfl⟩ := parse_ok_assign h
  have hlen : (collectAllQuestions (assignQuestionIds d0)).length = docCount d0 := by
    have h2 := congrArg List.length (assign_ids_doc d0)
    rwa [List.length_map, rangeIds_length] at h2
  rw [assign_ids_doc, hlen, rangeIds_eq_map]
  exact List.map_congr_left fun i hi => by rw [Nat.add_comm]

theorem claim_C1_witness :
    (collectAllQuestions ⟨[.mk "Q1" "X" [] 1], []⟩).map QuestionNode.id =
      (List.range (collectAllQuestions
        (⟨[.mk "Q1" "X" [] 1], []⟩ : DSMDocument)).length).map
          (fun i => "Q" ++ toString (i + 1)) :=
  claim_C1 "- **Q:** X\n" ⟨[.mk "Q1" "X" [] 1], []⟩ rfl

/-! ## Diagram renderer refinement (claim C3) -/

theorem replaceAllChar_append (c : Char) (r : List Char) (a b : List Char) :
    replaceAllChar c r (a ++ b) = replaceAllChar c r a ++ replaceAllChar c r b := by
  induction a with
  | nil => rfl
  | cons x t ih => simp [replaceAllChar, ih]

theorem escape_chain (l : List Char) :
    replaceAllChar ']' "#93;".data
      (replaceAllChar '[' "#91;".data
        (replaceAllChar '>' "&gt;".data
          (replaceAllChar '<' "&lt;".data
            (replaceAllChar '"' "&quot;".data l)))) =
      (l.map escMermaidChar).flatten := by
  induction l with
  | nil => rfl
  | cons x t ih =>
      rw [show replaceAllChar '"' "&quot;".data (x :: t) =
        (if x = '"' then "&quot;".data else [x]) ++
          replaceAllChar '"' "&quot;".data t from rfl]
      rw [replaceAllChar_append, replaceAllChar_append, replaceAllChar_append,
        replaceAllChar_append, ih, List.map_cons, List.flatten_cons]
      congr 1
      by_cases h1 : x = '"'
      · subst h1; rfl
      by_cases h2 : x = '<'
      · subst h2; simp [h1]; rfl
      by_cases h3 : x = '>'
      · subst h3; simp [h1]; rfl
      by_cases h4 : x = '['
      · subst h4; simp [h1]; rfl
      by_cases h5 : x = ']'
      · subst h5; simp [h1]; rfl
      simp [replaceAllChar, escMermaidChar, h1, h2, h3, h4, h5]

theorem escapeForMermaid_eq (s : String) : escapeForMermaid s = escapeSpec s :=
  congrArg String.mk (escape_chain s.data)

theorem mermaidNodeLine_eq (q : QuestionNode) :
    mermaidNodeLine q = mermaidNodeLineSpec q := by
  unfold mermaidNodeLine mermaidNodeLineSpec
  rw [escapeForMermaid_eq]

mutual

theorem generateEdges_eq : ∀ (q : QuestionNode),
    generateEdges q = (triplesQ q).map mermaidEdgeLineSpec
  | .mk qid t cs ln => by
      simp only [generateEdges, triplesQ]
      exact edgesIfList_eq qid cs

theorem edgesIfList_eq : ∀ (qid : String) (l : List IfNode),
    edgesIfList qid l = (triplesIfList qid l).map mermaidEdgeLineSpec
  | qid, [] => rfl
  | qid, .mk a qs ln :: rest => by
      simp only [edgesIfList, triplesIfList, List.map_append]
      rw [edgesChildren_eq qid a qs, edgesIfList_eq qid rest]

theorem edgesChildren_eq : ∀ (qid a : String) (l : List QuestionNode),
    edgesChildren qid a l = (triplesTargets qid a l).map mermaidEdgeLineSpec
  | qid, a, [] => rfl
  | qid, a, .mk cid t ccs ln :: rest => by
      simp only [edgesChildren, triplesTargets, List.map_cons, List.map_append]
      rw [generateEdges_eq (.mk cid t ccs ln), edgesChildren_eq qid a rest]
      rfl

end

mutual

theorem edgesTopic_eq : ∀ (t : TopicNode),
    edgesTopic t = (triplesTopic t).map mermaidEdgeLineSpec
  | .mk lvl title children questions ln => by
      simp only [edgesTopic, triplesTopic, List.map_append]
      rw [edgesQList_eq questions, edgesTopicList_eq children]

theorem edgesQList_eq : ∀ (l : List QuestionNode),
    edgesQList l = (triplesQList l).map mermaidEdgeLineSpec
  | [] => rfl
  | q :: rest => by
      simp only [edgesQList, triplesQList, List.map_append]
      rw [generateEdges_eq q, edgesQList_eq rest]

theorem edgesTopicList_eq : ∀ (l : List TopicNode),
    edgesTopicList l = (triplesTopicList l).map mermaidEdgeLineSpec
  | [] => rfl
  | t :: rest => by
      simp only [edgesTopicList, triplesTopicList, List.map_append]
      rw [edgesTopic_eq t, edgesTopicList_eq rest]

end

theorem generateMermaid_eq_spec (doc : DSMDocument) :
    generateMermaid doc = mermaidSpec doc := by
  unfold generateMermaid mermaidSpec
  rw [List.map_congr_left fun q _ => mermaidNodeLine_eq q]
  rw [edgesQList_eq doc.rootQuestions, edgesTopicList_eq doc.topics]
  rw [docTriples, List.map_append]

/-- C3: for every accepted document, the Mermaid output equals the spec
description: the fixed header line, one node line per question in identifier
pre-order with the node text escaped by the simultaneous substitution table,
then one edge line per question/condition/child triple in the same pre-order
with the answer text inserted verbatim, newline-joined without a trailing
newline. -/
theorem claim_C3 :
    ∀ (md : String) (doc : DSMDocument),
      parse md = .ok doc → toMermaid md = .ok (mermaidSpec doc) := by
  intro md doc h
  unfold toMermaid
  rw [h]
  simp only [generateMermaid_eq_spec]

theorem claim_C3_witness :
    toMermaid "- **Q:** X\n" = .ok (mermaidSpec ⟨[.mk "Q1" "X" [] 1], []⟩) :=
  claim_C3 "- **Q:** X\n" ⟨[.mk "Q1" "X" [] 1], []⟩ rfl

/-! ## Narrative renderer refinement (claim C9) -/

theorem strRepeat_indent (n : Nat) : strRepeat "    " n = inkIndentSpec n := by
  induction n with
  | zero => rfl
  | succ n ih =>
      rw [strRepeat, ih]
      unfold inkIndentSpec
      rw [show 4 * (n + 1) = 4 + 4 * n from by omega, List.replicate_add]
      rfl

mutual

theorem inkQuestion_eq : ∀ (d : Nat) (q : QuestionNode),
    inkQuestion d q = inkSpecQ d q
  | d, .mk i t cs ln => by
      simp only [inkQuestion, inkSpecQ, strRepeat_indent]
      cases cs with
      | nil => rfl
      | cons c rest =>
          simp only [List.isEmpty_cons, Bool.false_eq_true, if_false]
          rw [inkIfList_eq d (c :: rest)]

theorem inkIfList_eq : ∀ (d : Nat) (l : List IfNode),
    inkIfList d l = inkSpecIfs d l
  | d, [] => rfl
  | d, .mk a qs ln :: rest => by
      simp only [inkIfList, inkSpecIfs, strRepeat_indent]
      rw [inkChildren_eq d qs, inkIfList_eq d rest]

theorem inkChildren_eq : ∀ (d : Nat) (l : List QuestionNode),
    inkChildren d l = inkSpecTargets d l
  | d, [] => rfl
  | d, q :: rest => by
      simp only [inkChildren, inkSpecTargets]
      rw [inkQuestion_eq (d + 1) q, inkChildren_eq d rest]

end

mutual

theorem inkTopic_eq : ∀ (t : TopicNode), inkTopic t = inkSpecTopic t
  | .mk lvl title children questions ln => by
      simp only [inkTopic, inkSpecTopic]
      rw [inkQList_eq questions, inkTopicList_eq children]

theorem inkQList_eq : ∀ (l : List QuestionNode), inkQList l = inkSpecQList l
  | [] => rfl
  | q :: rest => by
      simp only [inkQList, inkSpecQList]
      rw [inkQuestion_eq 0 q, inkQList_eq rest]

theorem inkTopicList_eq : ∀ (l : List TopicNode),
    inkTopicList l = inkSpecTopicList l
  | [] => rfl
  | t :: rest => by
      simp only [inkTopicList, inkSpecTopicList]
      rw [inkTopic_eq t, inkTopicList_eq rest]

end

theorem generateInk_eq_spec (doc : DSMDocument) : generateInk doc = inkSpec doc := by
  unfold generateInk inkSpec
  rw [inkQList_eq doc.rootQuestions, inkTopicList_eq doc.topics]

/-- C9: for every accepted document, the Ink output equals the spec
description: each question line indented 4 spaces per nesting depth, one
blank line immediately after a question with condition children and none
after a childless question, each answer line verbatim at the question's
indent followed by its child questions at depth+1, all lines newline-joined
without a trailing newline. -/
theorem claim_C9 :
    ∀ (md : String) (doc : DSMDocument),
      parse md = .ok doc → toInk md = .ok (inkSpec doc) := by
  intro md doc h
  unfold toInk
  rw [h]
  simp only [generateInk_eq_spec]

theorem claim_C9_witness :
    toInk "- **Q:** X\n" = .ok (inkSpec ⟨[.mk "Q1" "X" [] 1], []⟩) :=
  claim_C9 "- **Q:** X\n" ⟨[.mk "Q1" "X" [] 1], []⟩ rfl

end MDT
